import Mathlib

/-!
# Verification of the task-manager backend core

A shallow embedding of the task-ordering and time-tracking engine of the
task-manager backend (Express + Mongoose controllers).  Identifiers
(user ids, task ids, section ids) are modelled as `String`, mirroring the
`ObjectId.toString()` comparisons the JavaScript source performs.  Wall-clock
time is modelled in whole seconds as `Nat`; `dayjs(a).diff(b, "second")`
becomes integer subtraction.  The persistent store is a pair of lists
(tasks, sections); Mongoose queries and single/bulk conditional updates are
translated into the corresponding list operations.  Fallible handlers become
`Except ApiError` values: an error result leaves the store untouched, exactly
as an early `return res.status(...)` does before any write.

Presentational response fields that no invariant touches (locale-formatted
dates, avatar colors, populated user names/emails) are not carried in the
embedded response records.

The store persists exactly the paths the schemas declare.  The task schema in
`src/models/Task.js` declares `timeTracking` entries with only `startTime`,
`endTime`, `duration` and `isActive` — no `userId` — and no task-level
`timeTracked` path.  Under Mongoose's default strict mode the `userId` the
controllers push is stripped by the subdocument cast and the `timeTracked`
assignment targets an undeclared path, so neither ever reaches the store.
Consequently, on stored sessions `session.userId` is `undefined`: the Mongo
condition `"timeTracking.userId": userId` matches no document, the JS guard
`session.userId && ...` is falsy without throwing, and
`session.userId.toString()` throws a TypeError that each handler's `catch`
turns into a 500.  The embedding models these evaluations explicitly.
-/

namespace TaskManager

abbrev UserId := String
abbrev TaskId := String
abbrev SectionId := String
/-- Wall-clock time in whole seconds since the epoch. -/
abbrev Time := Nat

/-- `dayjs(a).diff(dayjs(b), "second")`: signed difference in whole seconds. -/
def dayjsDiff (a b : Time) : Int := (a : Int) - (b : Int)

/-- One STORED time-tracking session: exactly the paths
`taskSchema.timeTracking` declares (`src/models/Task.js` lines 46-62).
The `userId` the controllers push is not a schema path and is stripped by
the strict-mode subdocument cast, so stored sessions carry no user. -/
structure Session where
  startTime : Time
  endTime : Option Time
  duration : Int
  isActive : Bool
deriving Repr, DecidableEq

/-- A task document (`src/models/Task.js`).  The schema declares no
`timeTracked` path (the older model in the repo had one; the current one
dropped it when it gained `timeTracking`), so the controllers' writes to
`task.timeTracked` target an undeclared path and are never persisted. -/
structure Task where
  id : TaskId
  title : String
  description : String
  status : String
  containerId : SectionId
  priority : String
  dueDate : Option Time
  assignees : List UserId
  sortIndex : Option Rat
  createdBy : UserId
  timeTracking : List Session
  createdAt : Time
deriving Repr, DecidableEq

/-- A container / custom section document (`src/models/CustomSection.js`).
`createdBy` is optional: seeded default sections carry no owner. -/
structure Section where
  id : SectionId
  title : String
  color : String
  createdBy : Option UserId
  isDefault : Bool
  createdAt : Time
deriving Repr, DecidableEq

/-- The persistent record store: the two Mongo collections. -/
structure Store where
  tasks : List Task
  sections : List Section
deriving Repr, DecidableEq

/-- Entry of the `activeSessions` payload built by `getUserActiveSessions`
(the payload's `userId: activeSession.userId` is undefined on stored
sessions and is omitted here like the other presentational fields). -/
structure ActiveSessionInfo where
  taskId : TaskId
  taskTitle : String
  startTime : Time
  duration : Int
deriving Repr, DecidableEq

/-- Failure taxonomy as the handlers surface it.  `notFound` is HTTP 404,
`forbidden` 403, the `badRequest`/conflict/`validation` variants 400, and
`serverError` 500 (an exception caught by the handler's `catch`).
`activeSessionConflict` carries the `activeSessions` payload reported by
`startTimeTracking`; `activeTaskSessionConflict` carries the per-task
`activeSession` payload of its second guard. -/
inductive ApiError where
  | notFound (message : String)
  | forbidden (message : String)
  | badRequest (message : String)
  | activeSessionConflict (message : String) (activeSessions : List ActiveSessionInfo)
  | activeTaskSessionConflict (message : String) (startTime : Time) (duration : Int)
  | validation (message : String)
  | serverError
deriving Repr, DecidableEq

/-- The store after a handler ran: an error response leaves it unchanged. -/
def resultStore {α : Type} (store : Store) : Except ApiError (α × Store) → Store
  | .error _ => store
  | .ok (_, s) => s

/-- Replace the task with the same id (a Mongoose `document.save()` /
`findByIdAndUpdate` persisting one document). -/
def putTask (store : Store) (t : Task) : Store :=
  { store with tasks := store.tasks.map (fun x => if x.id == t.id then t else x) }

/-- Replace the section with the same id. -/
def putSection (store : Store) (s : Section) : Store :=
  { store with sections := store.sections.map (fun x => if x.id == s.id then s else x) }

/-- `task.createdBy.toString() === userId || task.assignees.some(...)`:
the requester owns the task or is assigned to it. -/
def visibleTask (u : UserId) (t : Task) : Bool :=
  t.createdBy == u || t.assignees.contains u

/-- The Mongo condition `"timeTracking.userId": userId` evaluated on one
stored session: `userId` is not a path of the embedded session schema, so no
stored session ever matches it. -/
def storedSessionUserIs (s : Session) (userId : UserId) : Bool := false

/-- The JS filter `session.userId && session.userId.toString() === uid`
evaluated on a stored session: `session.userId` is `undefined`, hence falsy,
so the conjunction is false without the `.toString()` ever being reached. -/
def storedSessionBelongsTo (s : Session) (u : UserId) : Bool := false

/-- The JS find/findIndex predicate
`session.isActive && session.userId.toString() === uid` evaluated along a
stored session list: an inactive session short-circuits to false; the first
`isActive` session evaluates `undefined.toString()` and throws, so the
traversal either throws or reports no match — `some` is never produced. -/
def findStoredActive : List Session → Except Unit (Option Session)
  | [] => .ok none
  | s :: rest => if s.isActive then .error () else findStoredActive rest

/-- `taskSchema.pre("save")` hook from `src/models/Task.js`: rejects a save
whose `timeTracking` array holds more than one `isActive` session. -/
def preSave (t : Task) : Except String Task :=
  if 1 < (t.timeTracking.filter (fun s => s.isActive)).length then
    .error "Only one active time tracking session allowed per task"
  else
    .ok t

/-- `validateStatus` from `src/controllers/taskController.js`: the section
exists and is default or owned by the user.  When a non-default section has
no `createdBy`, `section.createdBy.toString()` throws, which the calling
handler's `catch` turns into a 500. -/
def validateStatus (store : Store) (userId : UserId) (statusId : SectionId) :
    Except ApiError Bool :=
  match store.sections.find? (fun s => s.id == statusId) with
  | none => .ok false
  | some sec =>
    if sec.isDefault then
      .ok true
    else
      match sec.createdBy with
      | none => .error .serverError
      | some owner => .ok (owner == userId)

/-- The `activeSessions` payload entry built for a task whose find matched. -/
def activeSessionInfo (now : Time) (t : Task) (s : Session) : ActiveSessionInfo :=
  { taskId := t.id
    taskTitle := t.title
    startTime := s.startTime
    duration := dayjsDiff now s.startTime }

/-- The `tasks.forEach` body of `getUserActiveSessions`: run the (throwing)
find over each matched task's sessions and push the payload entry when it
matches (it never can on stored sessions). -/
def collectActiveSessions (now : Time) : List Task → Except Unit (List ActiveSessionInfo)
  | [] => .ok []
  | t :: rest =>
    match findStoredActive t.timeTracking with
    | .error e => .error e
    | .ok none => collectActiveSessions now rest
    | .ok (some s) =>
      (collectActiveSessions now rest).map (fun l => activeSessionInfo now t s :: l)

/-- `getUserActiveSessions` from `src/controllers/taskController.js`: the
`Task.find` query demands the user be creator or assignee, some session be
active, AND some session match `"timeTracking.userId": userId` — a path the
schema does not declare, so the last condition excludes every document and
the scan always comes back empty (never throwing: its per-task find only
runs on matched tasks). -/
def getUserActiveSessions (store : Store) (userId : UserId) (now : Time) :
    Except Unit (List ActiveSessionInfo) :=
  let tasks := store.tasks.filter (fun t =>
    (t.createdBy == userId || t.assignees.contains userId) &&
    t.timeTracking.any (fun s => s.isActive) &&
    t.timeTracking.any (fun s => storedSessionUserIs s userId))
  collectActiveSessions now tasks

/-- `startTimeTracking`: 404 if the task is missing, 403 unless the requester
is creator or assignee; then the cross-task guard (whose scan is always
empty, so the conflict branch is dead); then the per-task find, whose
predicate throws on the first stored active session — surfacing as 500 —
and misses otherwise; on a miss a fresh active session with
`startTime = now` is appended (its pushed `userId` stripped by the cast)
and saved through the pre-save hook. -/
def startTimeTracking (store : Store) (u : UserId) (tid : TaskId) (now : Time) :
    Except ApiError (Session × Store) :=
  match store.tasks.find? (fun t => t.id == tid) with
  | none => .error (.notFound "Task not found")
  | some task =>
    if !visibleTask u task then
      .error (.forbidden "Not authorized")
    else
      match getUserActiveSessions store u now with
      | .error _ => .error .serverError
      | .ok userActiveSessions =>
        if 0 < userActiveSessions.length then
          .error (.activeSessionConflict
            "You already have an active time tracking session" userActiveSessions)
        else
          match findStoredActive task.timeTracking with
          | .error _ => .error .serverError
          | .ok (some s) =>
            .error (.activeTaskSessionConflict
              "You already have an active time tracking session for this task"
              s.startTime (dayjsDiff now s.startTime))
          | .ok none =>
            let newSession : Session :=
              { startTime := now, endTime := none, duration := 0, isActive := true }
            let task' := { task with timeTracking := task.timeTracking ++ [newSession] }
            match preSave task' with
            | .error _ => .error .serverError
            | .ok _ => .ok (newSession, putTask store task')

/-- The stop path's `findIndex(s => s.isActive && s.userId.toString() === uid)`
combined with the in-place close at the found index: on stored sessions the
predicate throws at the first active session and misses otherwise, so no
index — and hence no closed list — is ever produced. -/
def closeFirstActiveStored (now : Time) : List Session → Except Unit (Option (Int × List Session))
  | [] => .ok none
  | s :: rest =>
    if s.isActive then .error ()
    else (closeFirstActiveStored now rest).map (fun o => o.map (fun p => (p.1, s :: p.2)))

/-- `stopTimeTracking`: 404 / 403 guards as in `startTimeTracking`; then the
findIndex over stored sessions — a throw (500 `Server error`) whenever this
task holds an active session, 400 when it holds none, so no session is ever
closed.  The source's follow-up `task.timeTracked = (task.timeTracked || 0)
+ sessionDuration` sets a path the schema does not declare and would be
dropped at save; the unreachable closing branch therefore persists only the
`timeTracking` replacement. -/
def stopTimeTracking (store : Store) (u : UserId) (tid : TaskId) (now : Time) :
    Except ApiError (Int × Store) :=
  match store.tasks.find? (fun t => t.id == tid) with
  | none => .error (.notFound "Task not found")
  | some task =>
    if !visibleTask u task then
      .error (.forbidden "Not authorized")
    else
      match closeFirstActiveStored now task.timeTracking with
      | .error _ => .error .serverError
      | .ok none => .error (.badRequest "No active time tracking session found for this user")
      | .ok (some (d, tracking')) =>
        let task' := { task with timeTracking := tracking' }
        match preSave task' with
        | .error _ => .error .serverError
        | .ok _ => .ok (d, putTask store task')

/-! ## Container registry (`src/controllers/sectionController.js`) -/

/-- Patch body accepted by `updateSection` (`findByIdAndUpdate(id, req.body)`). -/
structure SectionPatch where
  title : Option String := none
  color : Option String := none
deriving Repr, DecidableEq

/-- Apply a section patch (Mongo `$set` of the provided fields). -/
def applySectionPatch (p : SectionPatch) (s : Section) : Section :=
  { s with title := p.title.getD s.title, color := p.color.getD s.color }

/-- `updateSection`: 404 if missing; 403 unless the requester owns the
section (`section.createdBy.toString()` throws for ownerless defaults,
surfacing as 500); 400 if the section is a default; otherwise patch it. -/
def updateSection (store : Store) (u : UserId) (sid : SectionId) (p : SectionPatch) :
    Except ApiError (Section × Store) :=
  match store.sections.find? (fun s => s.id == sid) with
  | none => .error (.notFound "Section not found")
  | some sec =>
    match sec.createdBy with
    | none => .error .serverError
    | some owner =>
      if !(owner == u) then
        .error (.forbidden "Not authorized")
      else if sec.isDefault then
        .error (.badRequest "Cannot update default sections")
      else
        let sec' := applySectionPatch p sec
        .ok (sec', putSection store sec')

/-- `deleteSection`: 404 if missing; the ownership check is commented out in
the source; 400 if the section is a default; otherwise remove it. -/
def deleteSection (store : Store) (u : UserId) (sid : SectionId) :
    Except ApiError (String × Store) :=
  match store.sections.find? (fun s => s.id == sid) with
  | none => .error (.notFound "Section not found")
  | some sec =>
    if sec.isDefault then
      .error (.badRequest "Cannot delete default sections")
    else
      .ok ("Section removed",
        { store with sections := store.sections.filter (fun s => !(s.id == sid)) })

/-! ## Task store (`src/controllers/taskController.js`) -/

/-- JavaScript string truthiness for optional query/body fields:
absent or empty strings are falsy. -/
def truthy : Option String → Bool
  | none => false
  | some s => !(s == "")

/-- `value || "default"` on an optional string field. -/
def orDefault (o : Option String) (d : String) : String :=
  match o with
  | some s => if s == "" then d else s
  | none => d

/-- Case-insensitive substring match, the semantics of
`{ $regex: search, $options: "i" }` for a plain search term: the lowercased
needle occurs inside the lowercased haystack. -/
def containsCI (hay needle : String) : Bool :=
  decide (needle.data.map Char.toLower <:+: hay.data.map Char.toLower)

/-- Priority enum of the task schema. -/
def validPriority (p : String) : Bool :=
  p == "Low" || p == "Normal" || p == "High"

/-- Query-string filters of `getTasks`. -/
structure TaskQuery where
  status : Option String := none
  priority : Option String := none
  assignedTo : Option UserId := none
  search : Option String := none
deriving Repr, DecidableEq

/-- Evaluate the Mongo query object `getTasks` builds against one task.
The handler starts from the visibility `$or` and adds exact-match filters,
but a `search` term REPLACES `query.$or` with the title/description regex
disjunction, dropping the visibility condition. -/
def matchesTaskQuery (u : UserId) (q : TaskQuery) (t : Task) : Bool :=
  let orCond :=
    if truthy q.search then
      containsCI t.title (q.search.getD "") || containsCI t.description (q.search.getD "")
    else
      t.createdBy == u || t.assignees.contains u
  let statusCond :=
    if truthy q.status && !(q.status.getD "" == "All") then t.status == q.status.getD ""
    else true
  let priorityCond :=
    if truthy q.priority && !(q.priority.getD "" == "All") then t.priority == q.priority.getD ""
    else true
  let assignedCond :=
    if truthy q.assignedTo then t.assignees.contains (q.assignedTo.getD "")
    else true
  orCond && statusCond && priorityCond && assignedCond

/-- Insertion step of a stable insertion sort by a boolean `le`. -/
def insertLe {α : Type} (le : α → α → Bool) (a : α) : List α → List α
  | [] => [a]
  | x :: xs => if le a x then a :: x :: xs else x :: insertLe le a xs

/-- Stable insertion sort by a boolean `le`, modelling a Mongo `sort`. -/
def sortLe {α : Type} (le : α → α → Bool) (l : List α) : List α :=
  l.foldr (insertLe le) []

/-- `sort({ createdAt: -1 })`: newest first. -/
def createdDesc (a b : Task) : Bool :=
  b.createdAt ≤ a.createdAt

/-- `sort({ isDefault: -1, createdAt: 1 })`: defaults first, then oldest first. -/
def sectionOrder (a b : Section) : Bool :=
  (a.isDefault && !b.isDefault) || (a.isDefault == b.isDefault && a.createdAt ≤ b.createdAt)

/-- `getTasks`: evaluate the built query against the task collection and sort
by creation time descending. -/
def getTasks (store : Store) (u : UserId) (q : TaskQuery) : List Task :=
  sortLe createdDesc (store.tasks.filter (matchesTaskQuery u q))

/-- Request body of `createTask` (`req.body`), including the
client-supplied `createdBy`. -/
structure CreateTaskBody where
  title : String := ""
  description : String := ""
  status : Option String := none
  priority : Option String := none
  dueDate : Option Time := none
  assignees : List UserId := []
  createdBy : UserId := ""
  containerId : SectionId := ""
  sortIndex : Option Rat := none
deriving Repr, DecidableEq

/-- Schema validation run by `Task.create` / `runValidators`: `title`
required and at most 100 characters, `description` at most 500, `priority`
in its enum, `containerId` and `createdBy` required. -/
def taskSchemaValid (t : Task) : Bool :=
  !(t.title == "") && t.title.length ≤ 100 &&
  t.description.length ≤ 500 &&
  validPriority t.priority &&
  !(t.containerId == "") && !(t.createdBy == "")

/-- The document `Task.create` persists: `status || "Open"`,
`priority || "Normal"`, `createdBy` taken from the body.  `newId`/`now`
stand for the fresh ObjectId and the `timestamps: true` creation time the
store assigns. -/
def createTaskDoc (b : CreateTaskBody) (newId : TaskId) (now : Time) : Task :=
  { id := newId
    title := b.title
    description := b.description
    status := orDefault b.status "Open"
    containerId := b.containerId
    priority := orDefault b.priority "Normal"
    dueDate := b.dueDate
    assignees := b.assignees
    sortIndex := b.sortIndex
    createdBy := b.createdBy
    timeTracking := []
    createdAt := now }

/-- The `Task.create` step: schema validation, then insert. -/
def createTaskInsert (store : Store) (b : CreateTaskBody) (newId : TaskId) (now : Time) :
    Except ApiError (Task × Store) :=
  let t := createTaskDoc b newId now
  if !taskSchemaValid t then
    .error (.validation "Task validation failed")
  else
    .ok (t, { store with tasks := store.tasks ++ [t] })

/-- `createTask`: when a `status` field is supplied, `validateStatus` is
called with the BODY's `createdBy` and the body's `containerId` (with no
`status`, the container is not validated at all); the document is then
created via `createTaskInsert`.  The authenticated requester is never
consulted. -/
def createTask (store : Store) (requester : UserId) (b : CreateTaskBody)
    (newId : TaskId) (now : Time) : Except ApiError (Task × Store) :=
  if truthy b.status then
    match validateStatus store b.createdBy b.containerId with
    | .error e => .error e
    | .ok false => .error (.badRequest "Invalid status")
    | .ok true => createTaskInsert store b newId now
  else
    createTaskInsert store b newId now

/-- Patch body accepted by `updateTask` (`findByIdAndUpdate(id, req.body)`),
restricted to the schema fields a client can set. -/
structure TaskPatch where
  title : Option String := none
  description : Option String := none
  status : Option String := none
  containerId : Option SectionId := none
  priority : Option String := none
  dueDate : Option Time := none
  assignees : Option (List UserId) := none
  sortIndex : Option Rat := none
deriving Repr, DecidableEq

/-- Apply a task patch (Mongo `$set` of the provided fields). -/
def applyTaskPatch (p : TaskPatch) (t : Task) : Task :=
  { t with
    title := p.title.getD t.title
    description := p.description.getD t.description
    status := p.status.getD t.status
    containerId := p.containerId.getD t.containerId
    priority := p.priority.getD t.priority
    dueDate := match p.dueDate with | some d => some d | none => t.dueDate
    assignees := p.assignees.getD t.assignees
    sortIndex := match p.sortIndex with | some i => some i | none => t.sortIndex }

/-- `updateTask`: 404 if missing; the creator-only authorization check and
the status re-validation are commented out in the source, so ANY requester's
patch is applied via `findByIdAndUpdate` (with `runValidators`). -/
def updateTask (store : Store) (u : UserId) (tid : TaskId) (p : TaskPatch) :
    Except ApiError (Task × Store) :=
  match store.tasks.find? (fun t => t.id == tid) with
  | none => .error (.notFound "Task not found")
  | some task =>
    let task' := applyTaskPatch p task
    if !taskSchemaValid task' then
      .error (.validation "Task validation failed")
    else
      .ok (task', putTask store task')

/-- `deleteTask`: 404 if missing; the creator-only authorization check is
commented out in the source, so ANY requester deletes the task. -/
def deleteTask (store : Store) (u : UserId) (tid : TaskId) :
    Except ApiError (String × Store) :=
  match store.tasks.find? (fun t => t.id == tid) with
  | none => .error (.notFound "Task not found")
  | some _ =>
    .ok ("Task removed",
      { store with tasks := store.tasks.filter (fun t => !(t.id == tid)) })

/-! ## Board projection (`getTasksBoard`) -/

/-- Task entry of the board payload (presentational fields omitted). -/
structure BoardTask where
  containerId : SectionId
  id : TaskId
  title : String
  status : String
  sortIndex : Option Rat
  createdAt : Time
deriving Repr, DecidableEq

/-- Section entry of the board payload. -/
structure BoardSection where
  id : SectionId
  title : String
  color : String
  tasks : List BoardTask
deriving Repr, DecidableEq

/-- `getTasksBoard`: fetch ALL sections (`CustomSection.find()`, sorted
defaults-first then by creation time) and ALL tasks (`Task.find()`, sorted by
creation time descending) — neither query filters by the requester — then
group the tasks under each section by `task.containerId === section.id`. -/
def getTasksBoard (store : Store) (u : UserId) : List BoardSection :=
  let sections := sortLe sectionOrder store.sections
  let tasks := sortLe createdDesc store.tasks
  sections.map (fun sec =>
    { id := sec.id
      title := sec.title
      color := sec.color
      tasks := (tasks.filter (fun t => t.containerId == sec.id)).map (fun t =>
        { containerId := sec.id
          id := t.id
          title := t.title
          status := sec.title
          sortIndex := t.sortIndex
          createdAt := t.createdAt }) })

/-! ## Ordering engine (`bulkUpdateSortIndex`) -/

/-- One entry of the `updates` array of `bulkUpdateSortIndex`. -/
structure SortUpdateItem where
  taskId : TaskId
  sortIndex : Rat
  containerId : Option SectionId := none
deriving Repr, DecidableEq

/-- `[...new Set(list)]`: deduplicate keeping first occurrences. -/
def dedupFirst : List SectionId → List SectionId
  | [] => []
  | x :: xs => x :: (dedupFirst xs).filter (fun y => !(y == x))

/-- The `for (let containerId of containerIds)` validation loop: 400 on the
first container `validateStatus` rejects (a thrown lookup surfaces as 500). -/
def validateContainersLoop (store : Store) (u : UserId) :
    List SectionId → Except ApiError Unit
  | [] => .ok ()
  | cid :: rest =>
    match validateStatus store u cid with
    | .error e => .error e
    | .ok false => .error (.badRequest ("Invalid container: " ++ cid))
    | .ok true => validateContainersLoop store u rest

/-- One `updateOne` of the bulk write: set `sortIndex`, and when a target
container is supplied also set `containerId` and `status` — the source
assigns the container ID itself to `status`
(`updateFields.status = containerId`). -/
def applyBulkItem (it : SortUpdateItem) (t : Task) : Task :=
  if truthy it.containerId then
    { t with
      sortIndex := some it.sortIndex
      containerId := it.containerId.getD ""
      status := it.containerId.getD "" }
  else
    { t with sortIndex := some it.sortIndex }

/-- Apply the unordered batch of per-task `updateOne` operations. -/
def applyBulkOps (store : Store) (updates : List SortUpdateItem) : Store :=
  updates.foldl (fun acc it =>
    { acc with tasks := acc.tasks.map (fun t => if t.id == it.taskId then applyBulkItem it t else t) })
    store

/-- `bulkUpdateSortIndex`: reject an empty batch; fetch the referenced tasks
and 404 unless every id resolved; 403 if the requester is neither creator nor
assignee of any referenced task; 400 if any supplied target container fails
`validateStatus` — all before `Task.bulkWrite` issues the writes. -/
def bulkUpdateSortIndex (store : Store) (u : UserId) (updates : List SortUpdateItem) :
    Except ApiError (Nat × Store) :=
  if updates.length == 0 then
    .error (.badRequest "Updates array is required")
  else
    let taskIds := updates.map (fun it => it.taskId)
    let tasks := store.tasks.filter (fun t => taskIds.contains t.id)
    if !(tasks.length == taskIds.length) then
      .error (.notFound "One or more tasks not found")
    else if tasks.any (fun t => !visibleTask u t) then
      .error (.forbidden "Not authorized to update one or more tasks")
    else
      let containerIds := dedupFirst (updates.filterMap (fun it =>
        if truthy it.containerId then it.containerId else none))
      match validateContainersLoop store u containerIds with
      | .error e => .error e
      | .ok _ =>
        let store' := applyBulkOps store updates
        .ok (updates.length, store')

/-! ## Time-tracking history (`getTimeTrackingHistory` and `formatDuration`) -/

/-- `String.padStart(2, "0")`. -/
def padStart2 (s : String) : String :=
  if 2 ≤ s.length then s else if s.length == 1 then "0" ++ s else "00"

/-- `formatDuration`: seconds to `"HH:MM:SS"`; falsy or negative input
renders as `"00:00:00"`. -/
def formatDuration (seconds : Int) : String :=
  if seconds == 0 || seconds < 0 then "00:00:00"
  else
    let hours := seconds / 3600
    let minutes := (seconds % 3600) / 60
    let secs := seconds % 60
    padStart2 (toString hours) ++ ":" ++ padStart2 (toString minutes) ++ ":" ++
      padStart2 (toString secs)

/-- One formatted history entry (formatted date strings and the undefined
`userId` omitted). -/
structure HistoryEntry where
  startTime : Time
  endTime : Option Time
  duration : Int
  isActive : Bool
  formattedDuration : String
deriving Repr, DecidableEq

/-- Response of `getTimeTrackingHistory`. -/
structure HistoryResponse where
  history : List HistoryEntry
  totalTimeTracked : Int
  userTotalTimeTracked : Int
  formattedTotalTime : String
  formattedUserTotalTime : String
deriving Repr, DecidableEq

/-- Live duration of a session: stored duration when closed, `now − startTime`
when still active. -/
def liveDuration (now : Time) (s : Session) : Int :=
  if s.isActive then dayjsDiff now s.startTime else s.duration

/-- One mapped history entry: live duration for a still-active session,
stored duration otherwise, rendered through `formatDuration`. -/
def historyEntryOf (now : Time) (s : Session) : HistoryEntry :=
  { startTime := s.startTime
    endTime := s.endTime
    duration := liveDuration now s
    isActive := s.isActive
    formattedDuration := formatDuration (liveDuration now s) }

/-- `getTimeTrackingHistory`: 404 / 403 guards, then the filter
`session.userId && session.userId.toString() === uid` — which keeps nothing
on stored sessions (the undefined `userId` is falsy) without throwing — and
`task.timeTracked || 0`, which is 0 since `timeTracked` is not a schema
path.  The history is therefore always empty. -/
def getTimeTrackingHistory (store : Store) (u : UserId) (tid : TaskId) (now : Time) :
    Except ApiError HistoryResponse :=
  match store.tasks.find? (fun t => t.id == tid) with
  | none => .error (.notFound "Task not found")
  | some task =>
    if !visibleTask u task then
      .error (.forbidden "Not authorized")
    else
      let userSessions := task.timeTracking.filter (fun s => storedSessionBelongsTo s u)
      let userTotal := (userSessions.map (liveDuration now)).sum
      .ok
        { history := userSessions.map (historyEntryOf now)
          totalTimeTracked := 0
          userTotalTimeTracked := userTotal
          formattedTotalTime := formatDuration 0
          formattedUserTotalTime := formatDuration userTotal }

/-! ## Concrete sample data for the exhibits and witnesses -/

/-- Sample store for the C3 witness: one seeded default section. -/
def storeC3 : Store :=
  { tasks := []
    sections := [{ id := "s1", title := "Open", color := "#3B82F6", createdBy := none,
                   isDefault := true, createdAt := 0 }] }

/-- Alice's task, used to exhibit the missing authorization checks. -/
def aliceTask : Task :=
  { id := "t1", title := "Plan", description := "", status := "Open",
    containerId := "s1", priority := "Normal", dueDate := none, assignees := [],
    sortIndex := none, createdBy := "alice", timeTracking := [], createdAt := 0 }

/-- Store for the C5/C4 exhibits. -/
def storeC5 : Store := { tasks := [aliceTask], sections := [] }

/-- The task "bob" asks to create while the body names "alice". -/
def bodyC6 : CreateTaskBody :=
  { title := "X", createdBy := "alice", containerId := "nosuch" }

/-- Body for the C6 amended witness: carries a truthy status. -/
def bodyC6b : CreateTaskBody :=
  { title := "X", createdBy := "alice", containerId := "s1", status := some "Open" }

/-- Store for the C6 amended witness: only the seeded default section. -/
def storeC6b : Store := { tasks := [], sections := storeC3.sections }

/-- A stored active session, as a successful start leaves it: only the
schema's paths, no user attribution. -/
def runningSession : Session :=
  { startTime := 0, endTime := none, duration := 0, isActive := true }

/-- The session a start at time 5 appends. -/
def startedSession5 : Session :=
  { startTime := 5, endTime := none, duration := 0, isActive := true }

/-- Task "t1" already holding Alice's stored active session. -/
def taskT1 : Task := { aliceTask with timeTracking := [runningSession] }

/-- A second task of Alice's, with no sessions yet. -/
def taskT2 : Task := { aliceTask with id := "t2" }

/-- Store for the C1/C2 exhibits: Alice created both tasks and already has
the (stored) active session in "t1". -/
def storeC1bug : Store := { tasks := [taskT1, taskT2], sections := [] }

/-- The store after Alice's second start succeeds in "t2". -/
def storeC1bugAfter : Store :=
  { tasks := [taskT1, { taskT2 with timeTracking := [startedSession5] }], sections := [] }

/-- Store for the C9 exhibit: default section "s2" titled "In Progress",
and Alice's task sitting in container "s1". -/
def storeC9 : Store :=
  { tasks := [aliceTask]
    sections := [{ id := "s2", title := "In Progress", color := "#F59E0B",
                   createdBy := none, isDefault := true, createdAt := 0 }] }

/-- Alice's task after the move into "s2", as the bulk write leaves it. -/
def movedAlice : Task :=
  { aliceTask with containerId := "s2", status := "s2", sortIndex := some 1 }

/-- The batch item moving task "t1" into container "s2". -/
def moveItemC9 : SortUpdateItem :=
  { taskId := "t1", sortIndex := 1, containerId := some "s2" }

/-- Board store for the C8 exhibits: one default container "s1" holding
tasks a, b, c at sortIndex 1, 1/2, 3 (b's index already moved to 0.5) created
in that order by "u1", plus Eve's task d, invisible to "u1". -/
def storeC8 : Store :=
  { tasks :=
      [{ aliceTask with id := "a", createdBy := "u1", sortIndex := some 1, createdAt := 1 },
       { aliceTask with id := "b", createdBy := "u1", sortIndex := some (1/2 : Rat), createdAt := 2 },
       { aliceTask with id := "c", createdBy := "u1", sortIndex := some 3, createdAt := 3 },
       { aliceTask with id := "d", createdBy := "eve", sortIndex := some 4, createdAt := 4 }]
    sections := [{ id := "s1", title := "Open", color := "#3B82F6", createdBy := none,
                   isDefault := true, createdAt := 0 }] }

/-- The first (and only) board section of the C8 store's projection. -/
def boardSecC8 : BoardSection :=
  (getTasksBoard storeC8 "u1").headD ⟨"", "", "", []⟩

/-! ## Shared lemmas -/

/-- An error response leaves the store untouched. -/
theorem resultStore_of_error {α : Type} (store : Store)
    (r : Except ApiError (α × Store)) (h : ∃ e, r = .error e) :
    resultStore store r = store := by
  rcases h with ⟨e, he⟩
  rw [he]
  rfl

/-! ## C3: default containers are immune to update and delete -/

/-- C3: for every container with `isDefault = true` and every requester —
owner or not — both `updateSection` and `deleteSection` fail with an error
and leave the store unchanged.  (`updateSection` fails 403 for a non-owner,
400 for the owner of a default, and 500 when a default has no owner field;
`deleteSection` fails 400 for everyone.) -/
theorem defaultSectionImmutable (store : Store) (u : UserId) (sid : SectionId)
    (p : SectionPatch) (sec : Section)
    (hfind : store.sections.find? (fun s => s.id == sid) = some sec)
    (hdef : sec.isDefault = true) :
    (∃ e, updateSection store u sid p = .error e) ∧
    (∃ e, deleteSection store u sid = .error e) ∧
    resultStore store (updateSection store u sid p) = store ∧
    resultStore store (deleteSection store u sid) = store := by
  have hupd : ∃ e, updateSection store u sid p = .error e := by
    simp only [updateSection, hfind]
    cases hcb : sec.createdBy with
    | none => exact ⟨.serverError, rfl⟩
    | some owner =>
      dsimp only
      by_cases ho : (owner == u) = true
      · refine ⟨.badRequest "Cannot update default sections", ?_⟩
        simp [ho, hdef]
      · refine ⟨.forbidden "Not authorized", ?_⟩
        simp [ho]
  have hdel : ∃ e, deleteSection store u sid = .error e := by
    refine ⟨.badRequest "Cannot delete default sections", ?_⟩
    simp [deleteSection, hfind, hdef]
  exact ⟨hupd, hdel, resultStore_of_error _ _ hupd, resultStore_of_error _ _ hdel⟩

/-- C3 witness: both mutations of the seeded default section fail concretely,
for a requester who could not own it. -/
theorem defaultSectionImmutable_witness :
    (∃ e, updateSection storeC3 "bob" "s1" {} = .error e) ∧
    (∃ e, deleteSection storeC3 "bob" "s1" = .error e) ∧
    resultStore storeC3 (updateSection storeC3 "bob" "s1" {}) = storeC3 ∧
    resultStore storeC3 (deleteSection storeC3 "bob" "s1") = storeC3 :=
  defaultSectionImmutable storeC3 "bob" "s1" {} _ (by rfl) (by rfl)

/-! ## C10: the pre-save hook allows at most one active session per task -/

/-- C10: saving a task whose `timeTracking` holds more than one `isActive`
session is rejected by the pre-save hook.  The hook counts `isActive`
sessions with no regard to who started them (stored sessions carry no user
anyway), so ANY two active entries — in particular ones started by two
different users — can never be persisted together on one task. -/
theorem preSaveSingleActivePerTask :
    (∀ t : Task, 1 < (t.timeTracking.filter (fun s => s.isActive)).length →
      preSave t = .error "Only one active time tracking session allowed per task") ∧
    (∀ (t : Task) (pre mid post : List Session) (s1 s2 : Session),
      t.timeTracking = pre ++ s1 :: mid ++ s2 :: post →
      s1.isActive = true → s2.isActive = true →
      preSave t = .error "Only one active time tracking session allowed per task") := by
  constructor
  · intro t h
    unfold preSave
    rw [if_pos h]
  · intro t pre mid post s1 s2 hsplit ha1 ha2
    unfold preSave
    rw [if_pos]
    rw [hsplit]
    simp [List.filter_append, List.filter_cons, ha1, ha2]
    omega

/-- C10 witness: a task carrying two active sessions (two concurrent starts)
is rejected by the hook. -/
theorem preSaveSingleActivePerTask_witness :
    preSave
      { id := "t1", title := "T", description := "", status := "Open",
        containerId := "s1", priority := "Normal", dueDate := none, assignees := [],
        sortIndex := none, createdBy := "alice",
        timeTracking :=
          [{ startTime := 0, endTime := none, duration := 0, isActive := true },
           { startTime := 1, endTime := none, duration := 0, isActive := true }],
        createdAt := 0 } =
      .error "Only one active time tracking session allowed per task" :=
  preSaveSingleActivePerTask.1 _ (by decide)

/-! ## C5: creator-only authorization on task update/delete is commented out -/

/-- C5 exhibit: the claim "update/delete by a non-creator fails Forbidden and
changes nothing" is violated — the authorization checks are commented out in
the source, so requester "bob" (not the creator "alice") successfully
mutates and successfully deletes Alice's task. -/
theorem noncreatorCanUpdateAndDelete :
    updateTask storeC5 "bob" "t1" { title := some "hijacked" } =
      .ok ({ aliceTask with title := "hijacked" },
           { tasks := [{ aliceTask with title := "hijacked" }], sections := [] }) ∧
    deleteTask storeC5 "bob" "t1" = .ok ("Task removed", { tasks := [], sections := [] }) ∧
    aliceTask.createdBy ≠ "bob" := by
  refine ⟨?_, ?_, by decide⟩ <;> rfl

/-! ## C4: a free-text search drops the visibility filter -/

/-- C4 exhibit: the claim "every task in the `getTasks` result is visible to
the requester, also under free-text search" is violated — a `search` term
REPLACES the visibility `$or`, so requester "bob" retrieves Alice's task,
which he neither created nor is assigned to, because its title matches. -/
theorem searchLeaksInvisibleTasks :
    getTasks storeC5 "bob" { search := some "plan" } = [aliceTask] ∧
    visibleTask "bob" aliceTask = false := by
  constructor <;> decide

/-! ## C6: the persisted creator comes from the request body -/

/-- C6 counterexample: against an empty store, requester "bob" submits a
body whose `createdBy` is "alice" and whose `containerId` resolves to no
container at all; creation succeeds anyway, persisting creator "alice" ≠
requester "bob" — refuting both halves of the claim at this input. -/
theorem createTaskIgnoresRequester :
    createTask { tasks := [], sections := [] } "bob" bodyC6 "t9" 5 =
      .ok (createTaskDoc bodyC6 "t9" 5,
           { tasks := [createTaskDoc bodyC6 "t9" 5], sections := [] }) ∧
    (createTaskDoc bodyC6 "t9" 5).createdBy = "alice" ∧
    "alice" ≠ "bob" ∧
    ({ tasks := [], sections := [] } : Store).sections.find?
      (fun s => s.id == "nosuch") = none := by
  refine ⟨rfl, rfl, by decide, rfl⟩

/-- C6 amended: on success the persisted creator equals the BODY's
`createdBy` field (the authenticated requester is ignored), and the
container reference is validated — against the body's `createdBy`, not the
requester — only when the body also carries a truthy `status`. -/
theorem createTaskPersistsBodyCreator (store : Store) (requester : UserId)
    (b : CreateTaskBody) (newId : TaskId) (now : Time) (t : Task) (store' : Store)
    (h : createTask store requester b newId now = .ok (t, store')) :
    t.createdBy = b.createdBy ∧ t.id = newId ∧
    store'.tasks = store.tasks ++ [t] ∧
    (truthy b.status = true → validateStatus store b.createdBy b.containerId = .ok true) := by
  have hins : createTaskInsert store b newId now = .ok (t, store') ∧
      (truthy b.status = true → validateStatus store b.createdBy b.containerId = .ok true) := by
    unfold createTask at h
    by_cases hs : truthy b.status = true
    · rw [if_pos hs] at h
      cases hv : validateStatus store b.createdBy b.containerId with
      | error e => rw [hv] at h; cases h
      | ok bv =>
        rw [hv] at h
        cases bv with
        | false => cases h
        | true => exact ⟨h, fun _ => rfl⟩
    · rw [if_neg hs] at h
      exact ⟨h, fun hc => absurd hc hs⟩
  rcases hins with ⟨hins, hval⟩
  unfold createTaskInsert at hins
  by_cases hok : (!taskSchemaValid (createTaskDoc b newId now)) = true
  · rw [if_pos hok] at hins; cases hins
  · rw [if_neg hok] at hins
    injection hins with hins
    injection hins with ht hstore
    subst ht
    refine ⟨rfl, rfl, ?_, hval⟩
    rw [← hstore]

/-- C6 amended witness: a concrete successful creation, with a truthy
status validated against the body's `createdBy`. -/
theorem createTaskPersistsBodyCreator_witness :
    (createTaskDoc bodyC6b "t9" 5).createdBy = bodyC6b.createdBy ∧
    (createTaskDoc bodyC6b "t9" 5).id = "t9" ∧
    ({ tasks := [createTaskDoc bodyC6b "t9" 5], sections := storeC3.sections } : Store).tasks =
      storeC6b.tasks ++ [createTaskDoc bodyC6b "t9" 5] ∧
    (truthy bodyC6b.status = true →
      validateStatus storeC6b bodyC6b.createdBy bodyC6b.containerId = .ok true) :=
  createTaskPersistsBodyCreator storeC6b "bob" bodyC6b "t9" 5 _ _ (by rfl)

/-! ## C1 and C2: the time-tracking engine against the real schema -/

/-- The cross-task active-session scan is dead code: its query includes the
condition `"timeTracking.userId": userId` on a path the session schema does
not declare, so no stored document ever matches and the scan returns `[]`
for EVERY store, user and time. -/
theorem getUserActiveSessions_eq_nil (store : Store) (u : UserId) (now : Time) :
    getUserActiveSessions store u now = .ok [] := by
  simp only [getUserActiveSessions]
  have hfil : store.tasks.filter (fun t =>
      (t.createdBy == u || t.assignees.contains u) &&
      t.timeTracking.any (fun s => s.isActive) &&
      t.timeTracking.any (fun s => storedSessionUserIs s u)) = [] := by
    apply List.filter_eq_nil_iff.mpr
    intro t ht
    simp [storedSessionUserIs]
  rw [hfil]
  rfl

/-- C1 exhibit: the claim "a start issued while U already has an active
session in any task fails Conflict and appends no new session" is violated.
Alice holds the stored active session in "t1"; because the conflict scan is
dead (first conjunct, for every input), her start on "t2" SUCCEEDS and
appends a second active session, leaving two tasks with simultaneously
active sessions from her two starts; and a start on "t1" itself surfaces as
a 500 (the per-task find's `session.userId.toString()` throws), not as the
claimed Conflict. -/
theorem secondStartSucceedsAcrossTasks :
    (∀ (store : Store) (u : UserId) (now : Time),
      getUserActiveSessions store u now = .ok []) ∧
    startTimeTracking storeC1bug "alice" "t2" 5 = .ok (startedSession5, storeC1bugAfter) ∧
    (storeC1bugAfter.tasks.filter
      (fun t => t.timeTracking.any (fun s => s.isActive))).length = 2 ∧
    startTimeTracking storeC1bug "alice" "t1" 5 = .error .serverError := by
  refine ⟨getUserActiveSessions_eq_nil, rfl, by decide, rfl⟩

/-- C2 exhibit: the claim "stop closes the requester's active session with
duration d and increments timeTracked by d" is violated.  With an active
stored session in "t1", stop throws (`session.userId.toString()` on a
session whose `userId` was stripped) and returns 500 with the store
unchanged — the session is never closed; with no active session it returns
the 400.  The history is empty even though "t1" holds a session, because
the filter `session.userId && ...` keeps nothing; `formatDuration` itself
does map 125 to "00:02:05", but no stop ever reaches it. -/
theorem stopThrowsOnStoredSessions :
    stopTimeTracking storeC1bug "alice" "t1" 125 = .error .serverError ∧
    resultStore storeC1bug (stopTimeTracking storeC1bug "alice" "t1" 125) = storeC1bug ∧
    stopTimeTracking storeC1bug "alice" "t2" 125 =
      .error (.badRequest "No active time tracking session found for this user") ∧
    getTimeTrackingHistory storeC1bug "alice" "t1" 125 =
      .ok { history := [], totalTimeTracked := 0, userTotalTimeTracked := 0,
            formattedTotalTime := "00:00:00", formattedUserTotalTime := "00:00:00" } ∧
    formatDuration 125 = "00:02:05" := by
  refine ⟨rfl, rfl, rfl, rfl, by decide⟩

/-! ## C7: bulk reorder validates everything before any write -/

/-- `dedupFirst` preserves membership. -/
theorem mem_dedupFirst {a : SectionId} {l : List SectionId} (h : a ∈ l) :
    a ∈ dedupFirst l := by
  induction l with
  | nil => cases h
  | cons x xs ih =>
    rcases List.mem_cons.mp h with rfl | hxs
    · exact List.mem_cons_self _ _
    · by_cases hax : a = x
      · rw [hax]; exact List.mem_cons_self _ _
      · refine List.mem_cons_of_mem _ (List.mem_filter.mpr ⟨ih hxs, ?_⟩)
        simp [hax]

/-- The container-validation loop fails as soon as some listed container is
not accepted by `validateStatus`. -/
theorem validateContainersLoop_error (store : Store) (u : UserId)
    (l : List SectionId) (cid : SectionId) (hmem : cid ∈ l)
    (hbad : ¬(validateStatus store u cid = .ok true)) :
    ∃ e, validateContainersLoop store u l = .error e := by
  induction l with
  | nil => cases hmem
  | cons x xs ih =>
    rcases List.mem_cons.mp hmem with rfl | hxs
    · unfold validateContainersLoop
      cases hv : validateStatus store u cid with
      | error e => exact ⟨e, rfl⟩
      | ok b =>
        cases b with
        | false => exact ⟨_, rfl⟩
        | true => exact absurd hv hbad
    · unfold validateContainersLoop
      cases hv : validateStatus store u x with
      | error e => exact ⟨e, rfl⟩
      | ok b =>
        cases b with
        | false => exact ⟨_, rfl⟩
        | true => exact ih hxs

/-- Counting: when some requested id resolves to no task (and stored ids are
distinct), strictly fewer tasks are fetched than ids were requested. -/
theorem tasks_filter_length_lt (tasks : List Task) (tids : List TaskId)
    (hnd : (tasks.map (fun t => t.id)).Nodup) (m : TaskId) (hm : m ∈ tids)
    (hmiss : ∀ t ∈ tasks, ¬(t.id = m)) :
    (tasks.filter (fun t => tids.contains t.id)).length < tids.length := by
  have hsub : List.Sublist (tasks.filter (fun t => tids.contains t.id)) tasks :=
    List.filter_sublist tasks
  have hndl : ((tasks.filter (fun t => tids.contains t.id)).map (fun t => t.id)).Nodup :=
    hnd.sublist (hsub.map _)
  have hsubset : ((tasks.filter (fun t => tids.contains t.id)).map (fun t => t.id)) ⊆
      tids.dedup.filter (fun x => !(x == m)) := by
    intro x hx
    rcases List.mem_map.mp hx with ⟨t, htl, rfl⟩
    have htl2 := List.mem_filter.mp htl
    have hxin : t.id ∈ tids := List.elem_iff.mp htl2.2
    refine List.mem_filter.mpr ⟨List.mem_dedup.mpr hxin, ?_⟩
    simp [hmiss t htl2.1]
  have hlen1 := ((hndl.subperm hsubset).length_le)
  have hlen2 : (tids.dedup.filter (fun x => !(x == m))).length < tids.dedup.length := by
    apply List.length_filter_lt_length_iff_exists.mpr
    exact ⟨m, List.mem_dedup.mpr hm, by simp⟩
  have hlen3 : tids.dedup.length ≤ tids.length := (tids.dedup_sublist).length_le
  have hlen0 : ((tasks.filter (fun t => tids.contains t.id)).map (fun t => t.id)).length =
      (tasks.filter (fun t => tids.contains t.id)).length := List.length_map _ _
  omega

/-- C7: if any batch item fails validation — its task does not resolve, the
requester is neither creator nor assignee of its task, or its target
container is not accepted by `validateStatus` — then `bulkUpdateSortIndex`
returns an error and not a single task of the batch is modified. -/
theorem bulkValidatesBeforeAnyWrite (store : Store) (u : UserId)
    (updates : List SortUpdateItem)
    (hnd : (store.tasks.map (fun t => t.id)).Nodup)
    (hbad :
      (∃ it ∈ updates, ∀ t ∈ store.tasks, ¬(t.id = it.taskId)) ∨
      (∃ t ∈ store.tasks, (∃ it ∈ updates, it.taskId = t.id) ∧ visibleTask u t = false) ∨
      (∃ it ∈ updates, truthy it.containerId = true ∧
        ¬(validateStatus store u (it.containerId.getD "") = .ok true))) :
    (∃ e, bulkUpdateSortIndex store u updates = .error e) ∧
    resultStore store (bulkUpdateSortIndex store u updates) = store := by
  have herr : ∃ e, bulkUpdateSortIndex store u updates = .error e := by
    unfold bulkUpdateSortIndex
    by_cases h0 : (updates.length == 0) = true
    · rw [if_pos h0]
      exact ⟨_, rfl⟩
    · rw [if_neg h0]
      by_cases hlen : ((store.tasks.filter
          (fun t => (updates.map (fun it => it.taskId)).contains t.id)).length ==
          (updates.map (fun it => it.taskId)).length) = true
      · rw [if_neg (by rw [hlen]; simp)]
        by_cases hany : ((store.tasks.filter
            (fun t => (updates.map (fun it => it.taskId)).contains t.id)).any
            (fun t => !visibleTask u t)) = true
        · rw [if_pos hany]
          exact ⟨_, rfl⟩
        · rw [if_neg hany]
          dsimp only
          rcases hbad with ⟨it, hit, hmiss⟩ | ⟨t, htmem, ⟨it, hitmem, hid⟩, hinvis⟩ |
            ⟨it, hitmem, htr, hnval⟩
          · exfalso
            have := tasks_filter_length_lt store.tasks (updates.map (fun x => x.taskId))
              hnd it.taskId (List.mem_map_of_mem _ hit) hmiss
            have heq := beq_iff_eq.mp hlen
            simp only [List.length_map] at heq this
            omega
          · exfalso
            apply hany
            apply List.any_eq_true.mpr
            refine ⟨t, List.mem_filter.mpr ⟨htmem, ?_⟩, by simp [hinvis]⟩
            exact List.elem_iff.mpr (hid ▸ List.mem_map_of_mem _ hitmem)
          · rcases hc : it.containerId with _ | cid0
            · rw [hc] at htr; cases htr
            · have hcd : it.containerId.getD "" = cid0 := by rw [hc]; rfl
              have hcin : cid0 ∈ updates.filterMap (fun x =>
                  if truthy x.containerId then x.containerId else none) := by
                apply List.mem_filterMap.mpr
                exact ⟨it, hitmem, by rw [if_pos htr, hc]⟩
              rcases validateContainersLoop_error store u _ cid0 (mem_dedupFirst hcin)
                (by rw [← hcd]; exact hnval) with ⟨e, he⟩
              rw [he]
              exact ⟨e, rfl⟩
      · rw [if_pos (by simp [Bool.not_eq_true] at hlen ⊢; exact hlen)]
        exact ⟨_, rfl⟩
  exact ⟨herr, resultStore_of_error _ _ herr⟩

/-- C7 witness: a batch touching Alice's task submitted by Bob (neither
creator nor assignee) is rejected with no write. -/
theorem bulkValidatesBeforeAnyWrite_witness :
    (∃ e, bulkUpdateSortIndex storeC5 "bob"
      [{ taskId := "t1", sortIndex := 1 }] = .error e) ∧
    resultStore storeC5 (bulkUpdateSortIndex storeC5 "bob"
      [{ taskId := "t1", sortIndex := 1 }]) = storeC5 :=
  bulkValidatesBeforeAnyWrite storeC5 "bob" [{ taskId := "t1", sortIndex := 1 }]
    (by decide)
    (Or.inr (Or.inl ⟨aliceTask, by decide,
      ⟨{ taskId := "t1", sortIndex := 1 }, by decide, by decide⟩, by decide⟩))

/-! ## C9: a bulk move writes containerId, sortIndex and status together,
but status receives the container ID -/

/-- `applyBulkItem` never changes the task id. -/
theorem applyBulkItem_id (it : SortUpdateItem) (t : Task) :
    (applyBulkItem it t).id = t.id := by
  unfold applyBulkItem
  split_ifs <;> rfl

/-- A task no batch item targets survives `applyBulkOps` unchanged. -/
theorem applyBulkOps_preserves (updates : List SortUpdateItem) (acc : Store) (x : Task)
    (hx : x ∈ acc.tasks) (hnone : ∀ it ∈ updates, ¬(x.id = it.taskId)) :
    x ∈ (applyBulkOps acc updates).tasks := by
  induction updates generalizing acc with
  | nil => exact hx
  | cons it0 rest ih =>
    have hkeep : (fun t => if t.id == it0.taskId then applyBulkItem it0 t else t) x = x := by
      show (if x.id == it0.taskId then applyBulkItem it0 x else x) = x
      rw [if_neg]
      simp [hnone it0 (List.mem_cons_self _ _)]
    exact ih _ (hkeep ▸ List.mem_map_of_mem _ hx)
      (fun it hit => hnone it (List.mem_cons_of_mem _ hit))

/-- With distinct `taskId`s in the batch, the task an item targets ends up
exactly as `applyBulkItem` rewrites it. -/
theorem applyBulkOps_hit (updates : List SortUpdateItem) (acc : Store)
    (it : SortUpdateItem) (hmem : it ∈ updates) (t : Task) (ht : t ∈ acc.tasks)
    (hid : t.id = it.taskId) (hndu : (updates.map (fun x => x.taskId)).Nodup) :
    applyBulkItem it t ∈ (applyBulkOps acc updates).tasks := by
  induction updates generalizing acc with
  | nil => cases hmem
  | cons it0 rest ih =>
    have hnd2 := List.nodup_cons.mp hndu
    rcases List.mem_cons.mp hmem with rfl | hrest
    · have hstep : (fun x => if x.id == it.taskId then applyBulkItem it x else x) t =
          applyBulkItem it t := by
        show (if t.id == it.taskId then applyBulkItem it t else t) = applyBulkItem it t
        rw [if_pos]
        simp [hid]
      apply applyBulkOps_preserves rest _ _ (hstep ▸ List.mem_map_of_mem _ ht)
      intro it' hit' heq
      apply hnd2.1
      rw [applyBulkItem_id, hid] at heq
      simp only [List.mem_map]
      exact ⟨it', hit', heq.symm⟩
    · have hne : ¬(t.id = it0.taskId) := by
        intro heq
        apply hnd2.1
        simp only [List.mem_map]
        exact ⟨it, hrest, by rw [← hid, heq]⟩
      have hkeep : (fun x => if x.id == it0.taskId then applyBulkItem it0 x else x) t = t := by
        show (if t.id == it0.taskId then applyBulkItem it0 t else t) = t
        rw [if_neg]
        simp [hne]
      exact ih _ hrest (hkeep ▸ List.mem_map_of_mem _ ht) hnd2.2

/-- C9 amended: on a successful bulk reorder with distinct task ids, every
item carrying a target container rewrites its task so that `containerId`,
`sortIndex` and `status` are all set together — with `status` receiving the
target container's ID (`updateFields.status = containerId`), not its title. -/
theorem bulkMoveSetsStatusToContainerId (store : Store) (u : UserId)
    (updates : List SortUpdateItem) (n : Nat) (store' : Store)
    (hok : bulkUpdateSortIndex store u updates = .ok (n, store'))
    (hndu : (updates.map (fun it => it.taskId)).Nodup) :
    ∀ it ∈ updates, ∀ t ∈ store.tasks, t.id = it.taskId →
      applyBulkItem it t ∈ store'.tasks ∧
      (truthy it.containerId = true →
        (applyBulkItem it t).containerId = it.containerId.getD "" ∧
        (applyBulkItem it t).status = it.containerId.getD "" ∧
        (applyBulkItem it t).sortIndex = some it.sortIndex) := by
  have hstore' : store' = applyBulkOps store updates := by
    unfold bulkUpdateSortIndex at hok
    split at hok
    · cases hok
    · dsimp only at hok
      split at hok
      · cases hok
      · split at hok
        · cases hok
        · split at hok
          · cases hok
          · simp only [Except.ok.injEq, Prod.mk.injEq] at hok
            exact hok.2.symm
  intro it hit t ht hid
  refine ⟨hstore' ▸ applyBulkOps_hit updates store it hit t ht hid hndu, ?_⟩
  intro htr
  unfold applyBulkItem
  rw [if_pos htr]
  exact ⟨rfl, rfl, rfl⟩

/-- C9 counterexample: moving Alice's task into section "s2" (titled
"In Progress") succeeds and leaves the task with `status = "s2"` — the
container ID — which differs from the target container's title, refuting
"the task's status string equals the target container's title". -/
theorem bulkMoveStatusIsNotTitle :
    bulkUpdateSortIndex storeC9 "alice" [moveItemC9] =
      .ok (1, { tasks := [movedAlice], sections := storeC9.sections }) ∧
    movedAlice.status = "s2" ∧
    "s2" ≠ "In Progress" := by
  refine ⟨rfl, rfl, by decide⟩

/-- C9 amended witness: the same concrete move, via the amended theorem. -/
theorem bulkMoveSetsStatusToContainerId_witness :
    applyBulkItem moveItemC9 aliceTask ∈
      ({ tasks := [movedAlice], sections := storeC9.sections } : Store).tasks ∧
    (truthy moveItemC9.containerId = true →
      (applyBulkItem moveItemC9 aliceTask).containerId = moveItemC9.containerId.getD "" ∧
      (applyBulkItem moveItemC9 aliceTask).status = moveItemC9.containerId.getD "" ∧
      (applyBulkItem moveItemC9 aliceTask).sortIndex = some moveItemC9.sortIndex) :=
  bulkMoveSetsStatusToContainerId storeC9 "alice" [moveItemC9] 1
    { tasks := [movedAlice], sections := storeC9.sections }
    (by rfl) (by decide) moveItemC9 (by decide) aliceTask (by decide) (by decide)

/-! ## C8: the board projection -/

/-- Membership through the insertion step. -/
theorem mem_insertLe {α : Type} (le : α → α → Bool) (x a : α) (l : List α) :
    a ∈ insertLe le x l ↔ a = x ∨ a ∈ l := by
  induction l with
  | nil => simp [insertLe]
  | cons y ys ih =>
    unfold insertLe
    by_cases h : le x y = true
    · simp [h]
    · simp only [if_neg h, List.mem_cons, ih]
      tauto

/-- Membership through the insertion sort. -/
theorem mem_sortLe {α : Type} (le : α → α → Bool) (a : α) (l : List α) :
    a ∈ sortLe le l ↔ a ∈ l := by
  induction l with
  | nil => simp [sortLe]
  | cons y ys ih =>
    unfold sortLe at ih ⊢
    simp only [List.foldr_cons, mem_insertLe, List.mem_cons, ih]

/-- Inserting into a `le`-sorted list keeps it sorted, given totality and
transitivity of `le`. -/
theorem pairwise_insertLe {α : Type} (le : α → α → Bool)
    (htot : ∀ a b, le a b = true ∨ le b a = true)
    (htrans : ∀ a b c, le a b = true → le b c = true → le a c = true)
    (x : α) (l : List α) (hl : l.Pairwise (fun a b => le a b = true)) :
    (insertLe le x l).Pairwise (fun a b => le a b = true) := by
  induction l with
  | nil => simp [insertLe]
  | cons y ys ih =>
    rcases List.pairwise_cons.mp hl with ⟨hy, hys⟩
    unfold insertLe
    by_cases h : le x y = true
    · rw [if_pos h]
      refine List.pairwise_cons.mpr ⟨?_, hl⟩
      intro b hb
      rcases List.mem_cons.mp hb with rfl | hbys
      · exact h
      · exact htrans x y b h (hy b hbys)
    · rw [if_neg h]
      have hyx : le y x = true := (htot x y).resolve_left h
      refine List.pairwise_cons.mpr ⟨?_, ih hys⟩
      intro b hb
      rcases (mem_insertLe le x b ys).mp hb with rfl | hbys
      · exact hyx
      · exact hy b hbys

/-- The insertion sort produces a `le`-sorted list. -/
theorem pairwise_sortLe {α : Type} (le : α → α → Bool)
    (htot : ∀ a b, le a b = true ∨ le b a = true)
    (htrans : ∀ a b c, le a b = true → le b c = true → le a c = true)
    (l : List α) : (sortLe le l).Pairwise (fun a b => le a b = true) := by
  induction l with
  | nil => exact List.Pairwise.nil
  | cons y ys ih => exact pairwise_insertLe le htot htrans y _ ih

/-- C8 amended: every section of the board payload carries exactly the tasks
of the WHOLE store whose `containerId` equals the section id — the requester
filters nothing — ordered by creation time descending (not by `sortIndex`),
with the displayed status taken from the section title. -/
theorem boardPartitionsAllTasksByCreation (store : Store) (u : UserId) :
    ∀ bs ∈ getTasksBoard store u,
      (∀ bt ∈ bs.tasks, ∃ t ∈ store.tasks, t.id = bt.id ∧ t.containerId = bs.id ∧
        bt.sortIndex = t.sortIndex ∧ bt.createdAt = t.createdAt ∧ bt.status = bs.title) ∧
      (∀ t ∈ store.tasks, t.containerId = bs.id → ∃ bt ∈ bs.tasks, bt.id = t.id) ∧
      bs.tasks.Pairwise (fun a b => b.createdAt ≤ a.createdAt) := by
  intro bs hbs
  unfold getTasksBoard at hbs
  rcases List.mem_map.mp hbs with ⟨sec, hsec, rfl⟩
  refine ⟨?_, ?_, ?_⟩
  · intro bt hbt
    rcases List.mem_map.mp hbt with ⟨t, htf, rfl⟩
    have ht2 := List.mem_filter.mp htf
    refine ⟨t, (mem_sortLe createdDesc t store.tasks).mp ht2.1, rfl, ?_, rfl, rfl, rfl⟩
    exact beq_iff_eq.mp ht2.2
  · intro t ht hcid
    refine ⟨_, List.mem_map_of_mem _ (List.mem_filter.mpr
      ⟨(mem_sortLe createdDesc t store.tasks).mpr ht, by simp [hcid]⟩), rfl⟩
  · have hsorted := pairwise_sortLe createdDesc
      (fun a b => by
        simp only [createdDesc, decide_eq_true_eq]
        exact Nat.le_total _ _)
      (fun a b c hab hbc => by
        simp only [createdDesc, decide_eq_true_eq] at hab hbc ⊢
        exact Nat.le_trans hbc hab)
      store.tasks
    have hfiltered := hsorted.filter (fun t => t.containerId == sec.id)
    apply List.pairwise_map.mpr
    apply hfiltered.imp
    intro a b hab
    simpa [createdDesc] using hab

/-- C8 counterexample: with a, b, c at sortIndex 1, 0.5, 3 the claim predicts
projected order [b, a, c] and only tasks visible to the requester; the board
actually lists the container's tasks as [d, c, b, a] — creation time
descending — and includes Eve's task d, which "u1" cannot see. -/
theorem boardOrderIsNotSortIndex :
    (getTasksBoard storeC8 "u1").map (fun bs => bs.tasks.map (fun bt => bt.id)) =
      [["d", "c", "b", "a"]] ∧
    (["d", "c", "b", "a"] : List String) ≠ ["b", "a", "c"] ∧
    visibleTask "u1"
      { aliceTask with id := "d", createdBy := "eve", sortIndex := some 4, createdAt := 4 } =
      false ∧
    (storeC8.tasks.map (fun t => t.sortIndex)).take 3 =
      [some 1, some (1/2 : Rat), some 3] := by
  refine ⟨rfl, by decide, rfl, rfl⟩

/-- C8 amended witness: the amended board property at the concrete store. -/
theorem boardPartitionsAllTasksByCreation_witness :
    (∀ bt ∈ boardSecC8.tasks,
      ∃ t ∈ storeC8.tasks, t.id = bt.id ∧ t.containerId = boardSecC8.id ∧
        bt.sortIndex = t.sortIndex ∧ bt.createdAt = t.createdAt ∧
        bt.status = boardSecC8.title) ∧
    (∀ t ∈ storeC8.tasks, t.containerId = boardSecC8.id →
      ∃ bt ∈ boardSecC8.tasks, bt.id = t.id) ∧
    boardSecC8.tasks.Pairwise (fun a b => b.createdAt ≤ a.createdAt) :=
  boardPartitionsAllTasksByCreation storeC8 "u1" boardSecC8
    (by exact List.mem_cons_self _ _)

end TaskManager
